import Mathlib

/-!
Verification of the mnotify-ts-sdk core pipeline: a shallow embedding of the
Result primitive, the structured error type, the validation helpers, the HTTP
transport (`HttpClient.requestSafe` / `request` / `buildUrl`) and the resource
operations that the specification describes, together with theorems settling
the specification's claims against that embedding.
-/

namespace MNotify

/-- Model of a JavaScript/JSON value as it flows through the SDK:
`undefined` is JavaScript `undefined`, `nullv` is `null`; objects are
insertion-ordered key/value lists as in a JS object literal. -/
inductive JsVal where
  | undefined : JsVal
  | nullv : JsVal
  | boolv : Bool → JsVal
  | num : Int → JsVal
  | str : String → JsVal
  | arr : List JsVal → JsVal
  | obj : List (String × JsVal) → JsVal

/-- Property access `o[k]` on a JS object: the first entry with key `k`,
`undefined` when the key is absent or the value is not an object. -/
def objGet (v : JsVal) (k : String) : JsVal :=
  match v with
  | .obj fields =>
    match fields.find? (fun kv => kv.1 = k) with
    | some kv => kv.2
    | none => .undefined
  | _ => .undefined

/-- `k in o`: key presence in a JS object (false on non-objects). -/
def objHas (v : JsVal) (k : String) : Bool :=
  match v with
  | .obj fields => (fields.find? (fun kv => kv.1 = k)).isSome
  | _ => false

/-- Lookup in a raw key/value list (used for error-context objects): the
first entry with key `k`. -/
def ctxLookup : List (String × JsVal) → String → Option JsVal
  | [], _ => none
  | kv :: rest, k => if kv.1 = k then some kv.2 else ctxLookup rest k

/-- JS object spread `{...a, ...b}`: `a`'s entries in order with values
overridden by `b` where `b` has the key, followed by `b`'s entries whose keys
are new. -/
def ctxMerge (a b : List (String × JsVal)) : List (String × JsVal) :=
  (a.map (fun kv =>
    match ctxLookup b kv.1 with
    | some v => (kv.1, v)
    | none => kv)) ++
  b.filter (fun kv => (ctxLookup a kv.1).isNone)

/-- `Result<T, E>` of `src/types/Result.ts`: tagged union `Ok`/`Err`. -/
inductive Result (T E : Type) where
  | ok (value : T) : Result T E
  | err (error : E) : Result T E

namespace Result

variable {T E U F : Type}

/-- `isOk()` variant test. -/
def isOk : Result T E → Bool
  | .ok _ => true
  | .err _ => false

/-- `isErr()` variant test. -/
def isErr : Result T E → Bool
  | .ok _ => false
  | .err _ => true

/-- `map(fn)`: transform the success value, re-wrap a failure unchanged. -/
def map (fn : T → U) : Result T E → Result U E
  | .ok v => .ok (fn v)
  | .err e => .err e

/-- `mapErr(fn)`: transform the error value, re-wrap a success unchanged. -/
def mapErr (fn : E → F) : Result T E → Result T F
  | .ok v => .ok v
  | .err e => .err (fn e)

/-- `andThen(fn)`: chain a Result-producing operation. -/
def andThen (fn : T → Result U E) : Result T E → Result U E
  | .ok v => fn v
  | .err e => .err e

/-- `unwrap()`: return the success value or throw the contained error.
Throwing is modelled by `Except`: `Except.error e` is `throw error`. -/
def unwrap : Result T E → Except E T
  | .ok v => .ok v
  | .err e => .error e

/-- `unwrapOr(defaultValue)`. -/
def unwrapOr (r : Result T E) (defaultValue : T) : T :=
  match r with
  | .ok v => v
  | .err _ => defaultValue

/-- `unwrapOrElse(fn)`. -/
def unwrapOrElse (r : Result T E) (fn : E → T) : T :=
  match r with
  | .ok v => v
  | .err e => fn e

/-- `match({ok, err})` pattern dispatch. -/
def matchWith (r : Result T E) (okFn : T → U) (errFn : E → U) : U :=
  match r with
  | .ok v => okFn v
  | .err e => errFn e

end Result

/-- The loop of `combine`: walks the list pushing success values (accumulator
kept reversed), returning the first `Err` encountered. -/
def combineGo {T E : Type} (acc : List T) : List (Result T E) → Result (List T) E
  | [] => .ok acc.reverse
  | r :: rest =>
    match r with
    | .err e => .err e
    | .ok v => combineGo (v :: acc) rest

/-- `combine(results)` of `src/types/Result.ts`: `Ok` with the array of values
if all are `Ok`, or the first `Err` encountered. -/
def combine {T E : Type} (results : List (Result T E)) : Result (List T) E :=
  combineGo [] results

/-- `MNotifyError` of `src/errors/MNotifyError.ts`. An absent (`undefined`)
`context` is modelled as the empty list, which is extensionally what the
spread in `withContext` produces. `stack` is the captured stack-trace text. -/
structure MNotifyError where
  message : String
  statusCode : Int
  data : Option JsVal := none
  context : List (String × JsVal) := []
  cause : Option JsVal := none
  stack : String := ""

namespace MNotifyError

/-- `withContext(context)`: a new error with the shallow-merged context,
preserving message, status code, data, cause, and the original stack. -/
def withContext (e : MNotifyError) (context : List (String × JsVal)) :
    MNotifyError :=
  { message := e.message
    statusCode := e.statusCode
    data := e.data
    context := ctxMerge e.context context
    cause := e.cause
    stack := e.stack }

end MNotifyError

/-- `annotateResultError(result, context)` of `src/errors/errorContext.ts`. -/
def annotateResultError {T : Type} (result : Result T MNotifyError)
    (context : List (String × JsVal)) : Result T MNotifyError :=
  result.mapErr (fun error => error.withContext context)

/-- `ValidationError` of `src/utils/validation.ts` (an `Error` subclass with an
optional offending field). -/
structure ValidationError where
  message : String
  field : Option String := none

/-- `isString` type guard. -/
def isString : JsVal → Bool
  | .str _ => true
  | _ => false

/-- `isNumber` type guard (`typeof value === 'number' && !isNaN(value)`; the
model has no NaN value, so every modelled number passes the NaN test). -/
def isNumber : JsVal → Bool
  | .num _ => true
  | _ => false

/-- `isArray` type guard. -/
def isArray : JsVal → Bool
  | .arr _ => true
  | _ => false

/-- `isObject` type guard (object, non-null, non-array). -/
def isObject : JsVal → Bool
  | .obj _ => true
  | _ => false

/-- `value === undefined || value === null` in `validateRequired`'s loop. -/
def isMissingValue : JsVal → Bool
  | .undefined => true
  | .nullv => true
  | _ => false

/-- The field loop of `validateRequired`: throws `ValidationError` on the first
absent/undefined/null field. `Except.error` models the `throw`. -/
def validateRequiredGo (o : JsVal) : List String → Except ValidationError Unit
  | [] => .ok ()
  | field :: rest =>
    if !objHas o field || isMissingValue (objGet o field) then
      .error ⟨s!"Missing required field: {field}", some field⟩
    else validateRequiredGo o rest

/-- `validateRequired(obj, fields)` of `src/utils/validation.ts`: throws
`ValidationError('Expected object')` on non-objects, then throws on the first
missing required field. -/
def validateRequired (o : JsVal) (fields : List String) :
    Except ValidationError Unit :=
  if !isObject o then .error ⟨"Expected object", none⟩
  else validateRequiredGo o fields

/-- `validateSMSResponse(data)`: a boolean shape check that can also throw,
because it calls `validateRequired` on the data and on its `summary`. -/
def validateSMSResponse (data : JsVal) : Except ValidationError Bool := do
  if !isObject data then return false
  validateRequired data ["status", "code", "message", "summary"]
  let summary := objGet data "summary"
  if !isObject summary then return false
  validateRequired summary
    ["_id", "message_id", "type", "total_sent", "contacts", "total_rejected",
     "numbers_sent", "credit_used", "credit_left"]
  return (isString (objGet data "status") &&
    isString (objGet data "code") &&
    isString (objGet data "message") &&
    isString (objGet summary "_id") &&
    isString (objGet summary "message_id") &&
    isString (objGet summary "type") &&
    isNumber (objGet summary "total_sent") &&
    isNumber (objGet summary "contacts") &&
    isNumber (objGet summary "total_rejected") &&
    isArray (objGet summary "numbers_sent") &&
    isNumber (objGet summary "credit_used") &&
    isNumber (objGet summary "credit_left"))

/-- Argument of `toArray`: `T | T[]` at `T = string`. -/
inductive StrOrList where
  | single (s : String) : StrOrList
  | list (xs : List String) : StrOrList

/-- `toArray(value)` of `src/utils/helpers.ts`:
`Array.isArray(value) ? value : [value]`. -/
def toArray : StrOrList → List String
  | .single s => [s]
  | .list xs => xs

/-- `RequestConfig` of `src/client/HttpClient.ts`. -/
structure RequestConfig where
  method : String
  url : String
  data : Option JsVal := none
  params : Option (List (String × String)) := none

/-- `SendSMSOptions` of `src/sms/SMSService.ts`. -/
structure SendSMSOptions where
  recipient : StrOrList
  sender : String
  message : String
  is_schedule : Option Bool := none
  schedule_date : Option String := none

/-- The payload object shaped by `sendQuickBulkSMSSafe` (`toArray` on the
recipient, `is_schedule || false`, `schedule_date || ''`). -/
def sendSMSPayload (options : SendSMSOptions) : JsVal :=
  .obj [("recipient", .arr ((toArray options.recipient).map JsVal.str)),
        ("sender", .str options.sender),
        ("message", .str options.message),
        ("is_schedule", .boolv (options.is_schedule.getD false)),
        ("schedule_date", .str (options.schedule_date.getD ""))]

/-- The JS exception channel of the resource operations: a thrown value is
either a `ValidationError` (escaping from `validateRequired`) or an
`MNotifyError` (thrown by `Result.unwrap`). -/
inductive Thrown where
  | validation (e : ValidationError) : Thrown
  | mnotify (e : MNotifyError) : Thrown

/-- `SMSService.sendQuickBulkSMSSafe(options)` as a function of the transport
(`client.requestSafe` abstracted as a descriptor-to-Result function): shapes
the payload, issues the request, and runs `validateSMSResponse` on a success
— with no try/catch, so a `ValidationError` thrown inside the validator
escapes (the `Except.error` channel). -/
def SMSService.sendQuickBulkSMSSafe
    (transport : RequestConfig → Result JsVal MNotifyError)
    (options : SendSMSOptions) :
    Except ValidationError (Result JsVal MNotifyError) := do
  let payload := sendSMSPayload options
  let result := transport { method := "POST", url := "/sms/quick", data := some payload }
  match result with
  | .err e => return .err e
  | .ok v =>
    let valid ← validateSMSResponse v
    if !valid then
      return .err { message := "Invalid SMS response format", statusCode := 0 }
    return .ok v

/-- `SMSService.sendQuickBulkSMS(options)`: awaits the Safe variant and
returns `result.unwrap()`; both exception sources are injected into the single
JS throw channel. -/
def SMSService.sendQuickBulkSMS
    (transport : RequestConfig → Result JsVal MNotifyError)
    (options : SendSMSOptions) : Except Thrown JsVal :=
  match SMSService.sendQuickBulkSMSSafe transport options with
  | .error ve => .error (.validation ve)
  | .ok result => result.unwrap.mapError Thrown.mnotify

/-- `AccountService.getSenderIdsSafe()` of `src/account/AccountService.ts`:
returns a synthesized `Err` without touching the transport. The second
component is the list of requests issued to the transport. -/
def AccountService.getSenderIdsSafe
    (_transport : RequestConfig → Result JsVal MNotifyError) :
    Result (List JsVal) MNotifyError × List RequestConfig :=
  (.err { message := "mNotify v2 does not provide a sender list endpoint. Use checkSenderIdStatusSafe(senderName).",
          statusCode := 400,
          context := [("service", .str "AccountService"),
                      ("operation", .str "getSenderIdsSafe"),
                      ("stage", .str "validation"),
                      ("path", .str "/senderid/status")] },
   [])

/-- `Contact` of `src/contacts/ContactService.ts`. -/
structure Contact where
  _id : String
  phone : String
  title : Option String := none
  firstname : String
  lastname : String
  email : Option (List String) := none
  dbo : Option String := none

/-- `validateContact(data)`: an id-like field (`_id` or `id`) plus a string
`phone`. -/
def validateContact (data : JsVal) : Bool :=
  isObject data &&
  (isString (objGet data "_id") || isString (objGet data "id")) &&
  isString (objGet data "phone")

/-- `data.email.every(isString)` extraction: all strings, or no result. -/
def jsStrings? : List JsVal → Option (List String)
  | [] => some []
  | .str s :: rest => (jsStrings? rest).map (fun xs => s :: xs)
  | _ => none

/-- `normalizeContact(data)`: resolves the id from `_id` or `id`, requires a
string `phone`, defaults the rest. `!id` in the source also rejects the empty
string (falsy). -/
def normalizeContact (data : JsVal) : Option Contact :=
  if !isObject data then none
  else
    let id : Option String :=
      match objGet data "_id" with
      | .str s => some s
      | _ =>
        match objGet data "id" with
        | .str s => some s
        | _ => none
    match id with
    | none => none
    | some idVal =>
      if idVal = "" then none
      else
        match objGet data "phone" with
        | .str phone =>
          some { _id := idVal
                 phone := phone
                 firstname := (match objGet data "firstname" with | .str s => s | _ => "")
                 lastname := (match objGet data "lastname" with | .str s => s | _ => "")
                 title := (match objGet data "title" with | .str s => some s | _ => none)
                 email := (match objGet data "email" with
                           | .arr xs => jsStrings? xs
                           | _ => none)
                 dbo := (match objGet data "dbo" with | .str s => some s | _ => none) }
        | _ => none

/-- The `{service: 'ContactService', operation}` context stamped by
`ContactService`'s private `annotate` helper. -/
def contactServiceCtx (operation : String) : List (String × JsVal) :=
  [("service", .str "ContactService"), ("operation", .str operation)]

/-- `ContactService.createContactSafe(contact, groupId?)` of
`src/contacts/ContactService.ts`, over an abstract transport; the second
component logs the requests issued. `if (!groupId)` rejects both an omitted
and an empty-string groupId (falsy). -/
def ContactService.createContactSafe
    (transport : RequestConfig → Result JsVal MNotifyError)
    (contact : JsVal) (groupId : Option String) :
    Result Contact MNotifyError × List RequestConfig :=
  if groupId.getD "" = "" then
    (.err { message := "mNotify v2 requires groupId to create a contact. Pass createContactSafe(contact, groupId).",
            statusCode := 400,
            context := [("service", .str "ContactService"),
                        ("operation", .str "createContactSafe"),
                        ("stage", .str "validation"),
                        ("path", .str "/contact/\x7bgroup_id\x7d")] },
     [])
  else
    let req : RequestConfig :=
      { method := "POST", url := "/contact/" ++ groupId.getD "", data := some contact }
    let result := annotateResultError (transport req) (contactServiceCtx "createContactSafe")
    match result with
    | .err e => (.err e, [req])
    | .ok v =>
      if !validateContact v then
        (.err { message := "Invalid contact response format", statusCode := 0,
                data := some v,
                context := [("service", .str "ContactService"),
                            ("operation", .str "createContactSafe"),
                            ("stage", .str "validation")] },
         [req])
      else
        match normalizeContact v with
        | none =>
          (.err { message := "Invalid contact response format", statusCode := 0,
                  data := some v,
                  context := [("service", .str "ContactService"),
                              ("operation", .str "createContactSafe"),
                              ("stage", .str "validation")] },
           [req])
        | some normalized => (.ok normalized, [req])

/-! ## WHATWG URL model for `new URL(path, base)` and `searchParams` -/

/-- A parsed URL: scheme, host, absolute path, and the search-params list.
(Userinfo, ports, fragments and percent-encoding are not modelled; the SDK's
base URLs and descriptor paths use none of them.) -/
structure URLRec where
  scheme : String
  host : String
  path : String
  query : List (String × String)

/-- Split a character list at the first occurrence of `c`: the part before,
and (when found) the part after. -/
def breakAtChar (c : Char) : List Char → List Char × Option (List Char)
  | [] => ([], none)
  | x :: xs =>
    if x = c then ([], some xs)
    else
      match breakAtChar c xs with
      | (pre, rest) => (x :: pre, rest)

/-- `prefixStr` is a prefix of `s` (structural `String.startsWith`). -/
def strStartsWith (s prefixStr : String) : Bool :=
  prefixStr.data.isPrefixOf s.data

/-- Split a character list at every `&` (the pieces of `s.splitOn "&")`. -/
def splitAmp : List Char → List (List Char)
  | [] => [[]]
  | c :: cs =>
    if c = '&' then [] :: splitAmp cs
    else
      match splitAmp cs with
      | [] => [[c]]
      | p :: ps => (c :: p) :: ps

/-- Parse a query string `a=1&b=2` into search params. -/
def parseQuery (s : String) : List (String × String) :=
  (splitAmp s.data).filterMap fun part =>
    if part.isEmpty then none
    else
      match breakAtChar '=' part with
      | (k, some v) => some (String.mk k, String.mk v)
      | (k, none) => some (String.mk k, "")

/-- Parse an absolute `http(s)` URL into host, path and query. An empty path
serializes as `/` (WHATWG special-scheme behavior). -/
def parseAbsUrl (s : String) : Option URLRec :=
  let schemeRest : Option (String × String) :=
    if strStartsWith s "https://" then some ("https", String.mk (s.data.drop 8))
    else if strStartsWith s "http://" then some ("http", String.mk (s.data.drop 7))
    else none
  match schemeRest with
  | none => none
  | some (scheme, rest) =>
    let (beforeQ, queryStr) := breakAtChar '?' rest.data
    let (host, pathRest) := breakAtChar '/' beforeQ
    if host.isEmpty then none
    else
      some { scheme := scheme
             host := String.mk host
             path := (match pathRest with
                      | none => "/"
                      | some p => "/" ++ String.mk p)
             query := (match queryStr with
                       | none => []
                       | some q => parseQuery (String.mk q)) }

/-- The base path's directory: everything up to and including the last `/`
(WHATWG merge-path used for relative references). -/
def dirOf (p : String) : String :=
  String.mk ((p.data.reverse.dropWhile (fun c => !(c = '/'))).reverse)

/-- `new URL(input, base)` resolution for the shapes the SDK produces: an
absolute input ignores the base; `//…` is protocol-relative; an input starting
with `/` replaces the base's entire path (this is what drops a base-path
prefix); any other non-empty input replaces the last segment of the base
path; an empty input yields the base itself. -/
def urlResolve (input : String) (base : String) : Option URLRec :=
  match parseAbsUrl input with
  | some u => some u
  | none =>
    match parseAbsUrl base with
    | none => none
    | some b =>
      if strStartsWith input "//" then
        parseAbsUrl (b.scheme ++ ":" ++ input)
      else
        let (beforeQ, queryStr) := breakAtChar '?' input.data
        let inputQuery := (match queryStr with
                           | none => []
                           | some q => parseQuery (String.mk q))
        if strStartsWith input "/" then
          some { b with path := String.mk beforeQ, query := inputQuery }
        else if beforeQ.isEmpty then
          some { b with query := (match queryStr with
                                  | none => b.query
                                  | some q => parseQuery (String.mk q)) }
        else
          some { b with path := dirOf b.path ++ String.mk beforeQ, query := inputQuery }

/-- `searchParams.set(k, v)`: replace the first entry named `k` (dropping any
later duplicates), or append when absent. -/
def setParam : List (String × String) → String → String → List (String × String)
  | [], k, v => [(k, v)]
  | (k', v') :: rest, k, v =>
    if k' = k then (k, v) :: rest.filter (fun kv => !(kv.1 = k))
    else (k', v') :: setParam rest k v

/-- `searchParams.get(k)`: the first entry named `k`. -/
def getParam : List (String × String) → String → Option String
  | [], _ => none
  | kv :: rest, k => if kv.1 = k then some kv.2 else getParam rest k

/-- Serialize search params (no percent-encoding; the modelled keys and
values contain no reserved characters). -/
def joinAmp : List String → String
  | [] => ""
  | [x] => x
  | x :: xs => x ++ "&" ++ joinAmp xs

/-- Serialize search params (no percent-encoding; the modelled keys and
values contain no reserved characters). -/
def serializeQuery (q : List (String × String)) : String :=
  joinAmp (q.map (fun kv => kv.1 ++ "=" ++ kv.2))

/-- `url.toString()`. -/
def urlToString (u : URLRec) : String :=
  u.scheme ++ "://" ++ u.host ++ u.path ++
    (if u.query.isEmpty then "" else "?" ++ serializeQuery u.query)

/-! ## HttpClient -/

/-- `HttpClient` instance state: the four immutable configuration fields.
The field defaults are the constructor's `||` defaults. -/
structure HttpClient where
  apiKey : String
  baseUrl : String := "https://api.mnotify.com/api"
  timeout : Int := 10000
  maxRetries : Nat := 3

/-- `buildUrl(path, params)` before `toString()`: resolve against the base,
`searchParams.set('key', apiKey)`, then set each descriptor param (in order,
after the key). `none` models the `new URL` constructor throwing. -/
def HttpClient.buildUrlRec (c : HttpClient) (path : String)
    (params : Option (List (String × String))) : Option URLRec :=
  (urlResolve path c.baseUrl).map fun u0 =>
    let u1 : URLRec := { u0 with query := setParam u0.query "key" c.apiKey }
    match params with
    | none => u1
    | some ps => { u1 with query := ps.foldl (fun q kv => setParam q kv.1 kv.2) u1.query }

/-- `buildUrl(path, params)` of `src/client/HttpClient.ts`. -/
def HttpClient.buildUrl (c : HttpClient) (path : String)
    (params : Option (List (String × String))) : Option String :=
  (c.buildUrlRec path params).map urlToString

/-! ## JS `parseInt` and timer semantics (for the retry-after header) -/

/-- JS whitespace skipped by `parseInt` (the common forms). -/
def jsWhitespace (c : Char) : Bool :=
  c == ' ' || c == '\t' || c == '\n' || c == '\r'

/-- Hexadecimal digit value. -/
def hexVal? (c : Char) : Option Nat :=
  if '0' ≤ c ∧ c ≤ '9' then some (c.toNat - '0'.toNat)
  else if 'a' ≤ c ∧ c ≤ 'f' then some (c.toNat - 'a'.toNat + 10)
  else if 'A' ≤ c ∧ c ≤ 'F' then some (c.toNat - 'A'.toNat + 10)
  else none

/-- Decimal digit value. -/
def decVal? (c : Char) : Option Nat :=
  if c.isDigit then some (c.toNat - '0'.toNat) else none

/-- Accumulate digit values in the given base. -/
def digitsToNat (base : Nat) (val : Char → Option Nat) (cs : List Char) : Nat :=
  cs.foldl (fun a c => a * base + (val c).getD 0) 0

/-- JS `parseInt(s)` with the default radix: skip leading whitespace, optional
sign, `0x`/`0X` selects base 16, then the longest run of digits; `none` is
`NaN` (no digits). Trailing garbage is ignored. -/
def jsParseInt (s : String) : Option Int :=
  let cs := s.data.dropWhile jsWhitespace
  let signAndRest : Bool × List Char :=
    match cs with
    | '-' :: t => (true, t)
    | '+' :: t => (false, t)
    | _ => (false, cs)
  let baseAndBody : Nat × List Char :=
    match signAndRest.2 with
    | '0' :: 'x' :: t => (16, t)
    | '0' :: 'X' :: t => (16, t)
    | _ => (10, signAndRest.2)
  let val? : Char → Option Nat := if baseAndBody.1 = 16 then hexVal? else decVal?
  let digits := baseAndBody.2.takeWhile (fun c => (val? c).isSome)
  if digits.isEmpty then none
  else
    let n : Int := Int.ofNat (digitsToNat baseAndBody.1 val? digits)
    some (if signAndRest.1 then -n else n)

/-- Line 92 of `HttpClient.ts`:
`parseInt(response.headers.get('retry-after') || '1') * 1000`. `headers.get`
returns `null` for an absent header, and `''` is falsy, so both fall back to
`'1'`; `none` in the result is `NaN` (unparseable header). -/
def retryDelayMs (header : Option String) : Option Int :=
  let s := match header with
    | none => "1"
    | some v => if v = "" then "1" else v
  (jsParseInt s).map (fun k => k * 1000)

/-- The delay actually applied by `setTimeout(resolve, ms)`: NaN and negative
delays are clamped to 0 (WHATWG timer initialization). -/
def jsSetTimeoutDelay : Option Int → Int
  | none => 0
  | some k => if k < 0 then 0 else k

/-! ## The transport pipeline `requestSafe` -/

/-- A value thrown inside the `try` block of `requestSafe`: an `MNotifyError`,
a JS `Error` with its `name` and `message` (an aborted fetch throws
`name = 'AbortError'`; a JSON parse failure on a 2xx body throws a
`SyntaxError`), or a non-`Error` value. -/
inductive FetchThrown where
  | mnotify (e : MNotifyError) : FetchThrown
  | jsError (name : String) (message : String) : FetchThrown
  | nonError (v : JsVal) : FetchThrown

/-- The outcome of one `fetch` attempt, as the code observes it: a response
with status, status text, `retry-after` header and the result of
`response.json()` (`Except.error` = the body is not JSON), or a thrown
value. -/
inductive FetchOutcome where
  | resp (status : Nat) (statusText : String) (retryAfter : Option String)
      (jsonBody : Except String JsVal) : FetchOutcome
  | thrown (e : FetchThrown) : FetchOutcome

/-- `response.ok`: status in the range 200–299 (fetch specification). -/
def respOk (status : Nat) : Bool :=
  200 ≤ status && status ≤ 299

/-- The `catch` block of `requestSafe`: pass `MNotifyError` through, map an
`AbortError` to 408 `"Request timeout"`, wrap everything else as a status-0
network error (an `Error`'s own message, or `'Network error'`). -/
def catchToError : FetchThrown → MNotifyError
  | .mnotify e => e
  | .jsError name message =>
    if name = "AbortError" then { message := "Request timeout", statusCode := 408 }
    else { message := message, statusCode := 0 }
  | .nonError _ => { message := "Network error", statusCode := 0 }

/-- `await response.json().catch(() => ({}))` on the error path. -/
def errorDataOf : Except String JsVal → JsVal
  | .ok j => j
  | .error _ => .obj []

/-- `errorData.message || response.statusText` (the modelled responses carry
string-typed messages; `''` is falsy). -/
def errorMessageOf (errorData : JsVal) (statusText : String) : String :=
  match objGet errorData "message" with
  | .str s => if s = "" then statusText else s
  | _ => statusText

/-- The non-2xx, non-retried arm of `requestSafe`: one attempt, no sleep,
`Err` carrying the parsed body's message (or the status line), the HTTP
status, and the parsed body as `data`. -/
def httpFailureResult (status : Nat) (statusText : String)
    (jsonBody : Except String JsVal) :
    Result JsVal MNotifyError × Nat × List (Option Int) :=
  let errorData := errorDataOf jsonBody
  (.err { message := errorMessageOf errorData statusText
          statusCode := Int.ofNat status
          data := some errorData },
   1, [])

/-- The body of `requestSafe(config, retryCount)` over an oracle giving the
outcome of each attempt (indexed by its `retryCount`), instrumented with the
number of attempts made and the list of sleep delays (in ms, `none` = NaN)
taken before retries. `fuel` bounds the recursion for Lean; the retry guard
`retryCount < maxRetries` means the recursion depth never exceeds
`maxRetries - retryCount + 1`, so the fuel-exhausted arm (which surfaces the
429 as an HTTP failure, exactly what the guard's false arm does) is
unreachable at the fuel `requestSafe` supplies. -/
def HttpClient.requestSafeGo (client : HttpClient) (oracle : Nat → FetchOutcome) :
    Nat → Nat → Result JsVal MNotifyError × Nat × List (Option Int)
  | fuel, retryCount =>
    match oracle retryCount with
    | .thrown t => (.err (catchToError t), 1, [])
    | .resp status statusText retryAfter jsonBody =>
      if !respOk status then
        if status = 429 ∧ retryCount < client.maxRetries then
          match fuel with
          | 0 => httpFailureResult status statusText jsonBody
          | fuel' + 1 =>
            let rest := client.requestSafeGo oracle fuel' (retryCount + 1)
            (rest.1, rest.2.1 + 1, retryDelayMs retryAfter :: rest.2.2)
        else httpFailureResult status statusText jsonBody
      else
        match jsonBody with
        | .ok j => (.ok j, 1, [])
        | .error m => (.err { message := m, statusCode := 0 }, 1, [])

/-- `requestSafe(config, retryCount = 0)` of `src/client/HttpClient.ts`,
instrumented: result, total attempts made, and the sleeps taken. -/
def HttpClient.requestSafe (client : HttpClient) (oracle : Nat → FetchOutcome)
    (retryCount : Nat := 0) : Result JsVal MNotifyError × Nat × List (Option Int) :=
  client.requestSafeGo oracle (client.maxRetries + 1) retryCount

/-- `request(config, retryCount)`: `requestSafe(...)` then `.unwrap()`. -/
def HttpClient.request (client : HttpClient) (oracle : Nat → FetchOutcome)
    (retryCount : Nat := 0) : Except MNotifyError JsVal :=
  (client.requestSafe oracle retryCount).1.unwrap

/-! ## Concrete instances used to evaluate the claims -/

/-- A client with the constructor defaults and API key `"k"`. -/
def clientK : HttpClient := { apiKey := "k" }

/-- The client of the repo's prefix-preservation test: custom base URL with a
`/api` path segment. -/
def apiPrefixClient : HttpClient :=
  { apiKey := "test-key", baseUrl := "https://api.mnotify.com/api" }

/-- A server that always answers HTTP 429 with no `retry-after` header. -/
def always429 : Nat → FetchOutcome :=
  fun _ => .resp 429 "Too Many Requests" none (.ok (.obj []))

/-- A fetch that is aborted by the timeout on every attempt. -/
def abortOracle : Nat → FetchOutcome :=
  fun _ => .thrown (.jsError "AbortError" "The operation was aborted")

/-- A server that always answers 200 with an empty JSON object. -/
def okOracle : Nat → FetchOutcome :=
  fun _ => .resp 200 "OK" none (.ok (.obj []))

/-- First attempt: 429 with an unparseable `retry-after: abc`; afterwards 200. -/
def abc429Oracle : Nat → FetchOutcome :=
  fun k =>
    if k = 0 then .resp 429 "Too Many Requests" (some "abc") (.ok (.obj []))
    else .resp 200 "OK" none (.ok (.obj []))

/-- The repo test's mock of a successful send response missing `summary`. -/
def missingSummaryResp : JsVal :=
  .obj [("status", .str "success"), ("code", .str "200"), ("message", .str "ok")]

/-- A transport whose (successful) JSON body is `missingSummaryResp`. -/
def missingSummaryTransport : RequestConfig → Result JsVal MNotifyError :=
  fun _ => .ok missingSummaryResp

/-- The send options used by the repo's tests. -/
def smsOptions0 : SendSMSOptions :=
  { recipient := .single "233200000000", sender := "Test", message := "Hello" }

/-! ## Lemmas about context merging -/

theorem ctxLookup_append (a b : List (String × JsVal)) (k : String) :
    ctxLookup (a ++ b) k = (ctxLookup a k).or (ctxLookup b k) := by
  induction a with
  | nil => simp [ctxLookup]
  | cons kv rest ih =>
    simp only [List.cons_append, ctxLookup]
    by_cases h : kv.1 = k
    · simp [h]
    · simp [h, ih]

theorem ctxLookup_mapOverride (a b : List (String × JsVal)) (k : String) :
    ctxLookup (a.map (fun kv =>
      match ctxLookup b kv.1 with
      | some v => (kv.1, v)
      | none => kv)) k =
    match ctxLookup a k with
    | some v => some ((ctxLookup b k).getD v)
    | none => none := by
  induction a with
  | nil => simp [ctxLookup]
  | cons kv rest ih =>
    simp only [List.map_cons, ctxLookup]
    by_cases h : kv.1 = k
    · cases hb : ctxLookup b kv.1 <;>
        simp [ctxLookup, h, h ▸ hb]
    · cases hb : ctxLookup b kv.1 <;>
        simp [ctxLookup, h, ih]

theorem ctxLookup_filterNotIn (a b : List (String × JsVal)) (k : String) :
    ctxLookup (b.filter (fun kv => (ctxLookup a kv.1).isNone)) k =
    match ctxLookup a k with
    | some _ => none
    | none => ctxLookup b k := by
  induction b with
  | nil => cases ctxLookup a k <;> simp [ctxLookup]
  | cons kv rest ih =>
    by_cases h : kv.1 = k
    · cases ha : ctxLookup a kv.1 with
      | none => simp [ctxLookup, List.filter, ha, h, h ▸ ha]
      | some v => simp [ctxLookup, List.filter, ha, h ▸ ha, ih]
    · cases ha : ctxLookup a kv.1 <;>
        simp [ctxLookup, List.filter, ha, h, ih]

theorem ctxLookup_ctxMerge (a b : List (String × JsVal)) (k : String) :
    ctxLookup (ctxMerge a b) k = (ctxLookup b k).or (ctxLookup a k) := by
  rw [ctxMerge, ctxLookup_append, ctxLookup_mapOverride, ctxLookup_filterNotIn]
  cases ha : ctxLookup a k <;> cases hb : ctxLookup b k <;> simp [Option.or]

/-! ## Lemmas about `combine` -/

theorem combineGo_eq {T E : Type} (rs : List (Result T E)) :
    ∀ acc : List T, combineGo acc rs =
      match combine rs with
      | .ok vs => .ok (acc.reverse ++ vs)
      | .err e => .err e := by
  induction rs with
  | nil => intro acc; simp [combine, combineGo]
  | cons r rest ih =>
    intro acc
    cases r with
    | err e => simp [combine, combineGo]
    | ok v =>
      show combineGo (v :: acc) rest = _
      rw [ih (v :: acc)]
      show _ = (match combineGo [v] rest with
        | .ok vs => _
        | .err e => _)
      rw [ih [v]]
      cases h : combine rest <;> simp

theorem combine_cons_ok {T E : Type} (v : T) (rest : List (Result T E)) :
    combine (.ok v :: rest) =
      match combine rest with
      | .ok vs => .ok (v :: vs)
      | .err e => .err e := by
  show combineGo [v] rest = _
  rw [combineGo_eq rest [v]]
  cases h : combine rest <;> simp

theorem combine_map_ok {T E : Type} (vs : List T) :
    combine (E := E) (vs.map Result.ok) = .ok vs := by
  induction vs with
  | nil => rfl
  | cons v rest ih => rw [List.map_cons, combine_cons_ok, ih]

theorem combine_ok_inv {T E : Type} (rs : List (Result T E)) :
    ∀ vs, combine rs = .ok vs → rs = vs.map Result.ok := by
  induction rs with
  | nil =>
    intro vs h
    have : (Result.ok (E := E) []) = .ok vs := h
    cases this
    rfl
  | cons r rest ih =>
    intro vs h
    cases r with
    | err e => exact absurd h (by simp [combine, combineGo])
    | ok v =>
      rw [combine_cons_ok] at h
      cases hc : combine rest with
      | err e => rw [hc] at h; cases h
      | ok vs' =>
        rw [hc] at h
        cases h
        rw [List.map_cons, ← ih vs' hc]

theorem combine_first_err {T E : Type} (pre : List T) (e : E)
    (post : List (Result T E)) :
    combine (pre.map Result.ok ++ .err e :: post) = .err e := by
  induction pre with
  | nil => rfl
  | cons v pre' ih => rw [List.map_cons, List.cons_append, combine_cons_ok, ih]

/-! ## Claim theorems: C6 and C10 -/

/-- C6: for every `MNotifyError` `e` and context partials `c1`, `c2`,
`e.withContext(c1).withContext(c2)` has context equal to the shallow merge of
`e`'s context, `c1` and `c2` in that order — looking up any key gives `c2`'s
value, else `c1`'s, else `e`'s (later writes win, unrelated keys survive) —
and every `withContext` application preserves message, statusCode, data,
cause and stack. -/
theorem withContext_merges_and_preserves (e : MNotifyError)
    (c1 c2 : List (String × JsVal)) :
    ((e.withContext c1).withContext c2).context =
      ctxMerge (ctxMerge e.context c1) c2 ∧
    (∀ k, ctxLookup ((e.withContext c1).withContext c2).context k =
      (ctxLookup c2 k).or ((ctxLookup c1 k).or (ctxLookup e.context k))) ∧
    (∀ c, (e.withContext c).message = e.message ∧
      (e.withContext c).statusCode = e.statusCode ∧
      (e.withContext c).data = e.data ∧
      (e.withContext c).cause = e.cause ∧
      (e.withContext c).stack = e.stack) := by
  refine ⟨rfl, ?_, fun c => ⟨rfl, rfl, rfl, rfl, rfl⟩⟩
  intro k
  show ctxLookup (ctxMerge (ctxMerge e.context c1) c2) k = _
  rw [ctxLookup_ctxMerge, ctxLookup_ctxMerge]

/-- C10: `combine(rs)` is `Ok` of the ordered success values exactly when all
elements are `Ok`, and is the first `Err` otherwise — elements after the
first failure are irrelevant. -/
theorem combine_ok_all_or_first_err (T E : Type) (rs : List (Result T E)) :
    (∀ vs, combine rs = .ok vs ↔ rs = vs.map Result.ok) ∧
    (∀ (pre : List T) (e : E) (post : List (Result T E)),
      rs = pre.map Result.ok ++ .err e :: post → combine rs = .err e) := by
  constructor
  · intro vs
    constructor
    · exact combine_ok_inv rs vs
    · intro h
      rw [h]
      exact combine_map_ok vs
  · intro pre e post h
    rw [h]
    exact combine_first_err pre e post

/-- Witness for C10 at a concrete list: the second `Err` element decides the
outcome and the trailing `Ok` is ignored. -/
theorem combine_ok_all_or_first_err_witness :
    combine ([Result.ok 1, Result.err "boom", Result.ok 2] : List (Result Nat String)) =
      .err "boom" :=
  (combine_ok_all_or_first_err Nat String _).2 [1] "boom" [.ok 2] rfl

/-! ## Lemmas about the transport's retry loop -/

theorem requestSafeGo_attempts_le (client : HttpClient) (oracle : Nat → FetchOutcome) :
    ∀ fuel r, (client.requestSafeGo oracle fuel r).2.1 ≤ client.maxRetries - r + 1 := by
  intro fuel
  induction fuel with
  | zero =>
    intro r
    rw [HttpClient.requestSafeGo.eq_1]
    cases oracle r with
    | thrown t => exact Nat.le_add_left 1 _
    | resp status stx ra jb =>
      simp only []
      cases hok : respOk status with
      | true => cases jb <;> exact Nat.le_add_left 1 _
      | false =>
        by_cases hretry : status = 429 ∧ r < client.maxRetries
        · simp only [Bool.not_false, if_true, if_pos hretry]
          exact Nat.le_add_left 1 _
        · simp only [Bool.not_false, if_true, if_neg hretry]
          exact Nat.le_add_left 1 _
  | succ fuel ih =>
    intro r
    rw [HttpClient.requestSafeGo.eq_1]
    cases oracle r with
    | thrown t => exact Nat.le_add_left 1 _
    | resp status stx ra jb =>
      simp only []
      cases hok : respOk status with
      | true => cases jb <;> exact Nat.le_add_left 1 _
      | false =>
        by_cases hretry : status = 429 ∧ r < client.maxRetries
        · obtain ⟨h429, hlt⟩ := hretry
          have hr := ih (r + 1)
          simp only [Bool.not_false, if_true, if_pos (And.intro h429 hlt)]
          show (client.requestSafeGo oracle fuel (r + 1)).2.1 + 1 ≤
            client.maxRetries - r + 1
          omega
        · simp only [Bool.not_false, if_true, if_neg hretry]
          exact Nat.le_add_left 1 _

theorem requestSafeGo_retry_source (client : HttpClient)
    (oracle : Nat → FetchOutcome) (fuel r : Nat)
    (h1 : 1 < (client.requestSafeGo oracle fuel r).2.1) :
    r < client.maxRetries ∧ ∃ stx ra jb, oracle r = .resp 429 stx ra jb := by
  rw [HttpClient.requestSafeGo.eq_1] at h1
  cases h : oracle r with
  | thrown t =>
    rw [h] at h1
    exact absurd (show (1 : Nat) < 1 from h1) (by omega)
  | resp status stx ra jb =>
    rw [h] at h1
    simp only [] at h1
    cases hok : respOk status with
    | true =>
      rw [hok] at h1
      cases jb <;> exact absurd (show (1 : Nat) < 1 from h1) (by omega)
    | false =>
      rw [hok] at h1
      by_cases hretry : status = 429 ∧ r < client.maxRetries
      · exact ⟨hretry.2, stx, ra, jb, by rw [hretry.1]⟩
      · rw [if_neg hretry] at h1
        exact absurd (show (1 : Nat) < 1 from h1) (by omega)

theorem requestSafeGo_always429 (client : HttpClient)
    (oracle : Nat → FetchOutcome)
    (hall : ∀ k, ∃ stx ra jb, oracle k = .resp 429 stx ra jb) :
    ∀ fuel r, client.maxRetries + 1 - r ≤ fuel →
      (client.requestSafeGo oracle fuel r).2.1 = client.maxRetries - r + 1 ∧
      ∃ e, (client.requestSafeGo oracle fuel r).1 = .err e ∧ e.statusCode = 429 := by
  intro fuel
  induction fuel with
  | zero =>
    intro r hfuel
    obtain ⟨stx, ra, jb, h⟩ := hall r
    have hr : ¬ r < client.maxRetries := by omega
    rw [HttpClient.requestSafeGo.eq_1, h]
    simp only []
    simp [show respOk 429 = false from rfl, hr, httpFailureResult]
    omega
  | succ fuel ih =>
    intro r hfuel
    obtain ⟨stx, ra, jb, h⟩ := hall r
    rw [HttpClient.requestSafeGo.eq_1, h]
    simp only []
    by_cases hr : r < client.maxRetries
    · obtain ⟨ha, e, he, hs⟩ := ih (r + 1) (by omega)
      simp [show respOk 429 = false from rfl, hr]
      constructor
      · omega
      · exact ⟨e, he, hs⟩
    · simp [show respOk 429 = false from rfl, hr, httpFailureResult]
      omega

/-! ## Claim theorems: C3, C4, C5 -/

/-- C3: `requestSafe` retries only on status 429 with `retryCount` below
`maxRetries`; the attempt count from a start `retryCount = r` is at most
`maxRetries - r + 1` (so 4 attempts for `maxRetries = 3` from 0); more than
one attempt implies attempt `r` returned 429 with `r < maxRetries`; and a
server that always answers 429 yields exactly `maxRetries - r + 1` attempts
and surfaces the 429 as an `Err`. -/
theorem requestSafe_retry_only_429_and_bounded (client : HttpClient)
    (oracle : Nat → FetchOutcome) (r : Nat) :
    (client.requestSafe oracle r).2.1 ≤ client.maxRetries - r + 1 ∧
    (1 < (client.requestSafe oracle r).2.1 →
      r < client.maxRetries ∧ ∃ stx ra jb, oracle r = .resp 429 stx ra jb) ∧
    ((∀ k, ∃ stx ra jb, oracle k = .resp 429 stx ra jb) →
      (client.requestSafe oracle r).2.1 = client.maxRetries - r + 1 ∧
      ∃ e, (client.requestSafe oracle r).1 = .err e ∧ e.statusCode = 429) :=
  ⟨requestSafeGo_attempts_le client oracle _ r,
   fun h1 => requestSafeGo_retry_source client oracle _ r h1,
   fun hall => requestSafeGo_always429 client oracle hall _ r (by omega)⟩

/-- Witness for C3: with the default `maxRetries = 3` and a server that always
answers 429, exactly 4 attempts are made and the result is an `Err` with
status 429. -/
theorem requestSafe_retry_only_429_and_bounded_witness :
    (clientK.requestSafe always429 0).2.1 = 4 ∧
    ∃ e, (clientK.requestSafe always429 0).1 = .err e ∧ e.statusCode = 429 :=
  (requestSafe_retry_only_429_and_bounded clientK always429 0).2.2
    (fun _ => ⟨"Too Many Requests", none, .ok (.obj []), rfl⟩)

/-- C4: a timed-out request (the abort signal fires, so `fetch` rejects with
an `AbortError`) yields an `Err` with status 408 and message exactly
"Request timeout", in a single attempt with no sleep — the timeout branch
never retries. -/
theorem requestSafe_timeout_408_no_retry (client : HttpClient)
    (oracle : Nat → FetchOutcome) (r : Nat) (msg : String)
    (h : oracle r = .thrown (.jsError "AbortError" msg)) :
    client.requestSafe oracle r =
      (.err { message := "Request timeout", statusCode := 408 }, 1, []) := by
  show client.requestSafeGo oracle (client.maxRetries + 1) r = _
  rw [HttpClient.requestSafeGo.eq_1, h]
  rfl

/-- Witness for C4: a concrete aborted request returns the 408 error after one
attempt. -/
theorem requestSafe_timeout_408_no_retry_witness :
    clientK.requestSafe abortOracle 0 =
      (.err { message := "Request timeout", statusCode := 408 }, 1, []) :=
  requestSafe_timeout_408_no_retry clientK abortOracle 0 "The operation was aborted" rfl

/-- C5: the throwing convention is the Result convention followed by
`unwrap`: `request` is definitionally `requestSafe(...).unwrap()` and agrees
with it case by case, and `sendQuickBulkSMS` returns the Safe variant's
success value, rethrows its `Err` error unchanged, and propagates an
exception escaping the Safe variant. -/
theorem throwing_equals_safe_then_unwrap (client : HttpClient)
    (oracle : Nat → FetchOutcome) (r : Nat)
    (transport : RequestConfig → Result JsVal MNotifyError)
    (options : SendSMSOptions) :
    client.request oracle r = (client.requestSafe oracle r).1.unwrap ∧
    (∀ v, (client.requestSafe oracle r).1 = .ok v →
      client.request oracle r = .ok v) ∧
    (∀ e, (client.requestSafe oracle r).1 = .err e →
      client.request oracle r = .error e) ∧
    (∀ v, SMSService.sendQuickBulkSMSSafe transport options = .ok (.ok v) →
      SMSService.sendQuickBulkSMS transport options = .ok v) ∧
    (∀ e, SMSService.sendQuickBulkSMSSafe transport options = .ok (.err e) →
      SMSService.sendQuickBulkSMS transport options = .error (.mnotify e)) ∧
    (∀ ve, SMSService.sendQuickBulkSMSSafe transport options = .error ve →
      SMSService.sendQuickBulkSMS transport options = .error (.validation ve)) := by
  refine ⟨rfl, ?_, ?_, ?_, ?_, ?_⟩
  · intro v hv
    show (client.requestSafe oracle r).1.unwrap = _
    rw [hv]
    rfl
  · intro e he
    show (client.requestSafe oracle r).1.unwrap = _
    rw [he]
    rfl
  · intro v hv
    unfold SMSService.sendQuickBulkSMS
    rw [hv]
    rfl
  · intro e he
    unfold SMSService.sendQuickBulkSMS
    rw [he]
    rfl
  · intro ve hve
    unfold SMSService.sendQuickBulkSMS
    rw [hve]

/-- Witness for C5: a concrete 200 response is returned identically by both
calling conventions. -/
theorem throwing_equals_safe_then_unwrap_witness :
    clientK.request okOracle 0 = .ok (.obj []) :=
  (throwing_equals_safe_then_unwrap clientK okOracle 0
      missingSummaryTransport smsOptions0).2.1 (.obj []) rfl

/-! ## Lemmas about `setParam` -/

theorem getParam_setParam_self (q : List (String × String)) (k v : String) :
    getParam (setParam q k v) k = some v := by
  induction q with
  | nil => simp [setParam, getParam]
  | cons kv rest ih =>
    obtain ⟨k1, v1⟩ := kv
    by_cases h : k1 = k
    · simp [setParam, getParam, h]
    · simp [setParam, getParam, h, ih]

theorem getParam_filter_other (q : List (String × String)) (k k2 : String)
    (hne : k2 ≠ k) :
    getParam (q.filter (fun kv => !(kv.1 = k2))) k = getParam q k := by
  induction q with
  | nil => rfl
  | cons kv rest ih =>
    obtain ⟨k1, v1⟩ := kv
    by_cases h : k1 = k2
    · have hk : ¬ (k1 = k) := fun hh => hne (h ▸ hh)
      simp [List.filter_cons, h, getParam, hk, hne, ih]
    · by_cases hkk : k1 = k <;>
        simp [List.filter_cons, h, getParam, hkk, hne, Ne.symm hne, ih]

theorem getParam_setParam_other (q : List (String × String)) (k k2 v : String)
    (hne : k2 ≠ k) : getParam (setParam q k2 v) k = getParam q k := by
  induction q with
  | nil => simp [setParam, getParam, hne]
  | cons kv rest ih =>
    obtain ⟨k1, v1⟩ := kv
    by_cases h : k1 = k2
    · have hk : ¬ (k1 = k) := fun hh => hne (h ▸ hh)
      simp [setParam, h, getParam, hne, hk, getParam_filter_other rest k k2 hne]
    · by_cases hkk : k1 = k <;>
        simp [setParam, h, getParam, hkk, hne, Ne.symm hne, ih]

theorem getParam_foldl_setParam (ps : List (String × String)) :
    ∀ q, (∀ kv ∈ ps, kv.1 ≠ "key") →
      getParam (ps.foldl (fun q kv => setParam q kv.1 kv.2) q) "key" =
        getParam q "key" := by
  induction ps with
  | nil => intro q _; rfl
  | cons kv rest ih =>
    intro q ha
    rw [List.foldl_cons,
      ih (setParam q kv.1 kv.2) (fun x hx => ha x (List.mem_cons_of_mem _ hx)),
      getParam_setParam_other _ _ _ _ (ha kv (List.mem_cons_self _ _))]

/-! ## Claim theorems: C1, C2, C7, C8, C9 -/

/-- C1 (code bug): with base URL `https://api.mnotify.com/api` and descriptor
path `/sms/quick`, `buildUrl` resolves to
`https://api.mnotify.com/sms/quick?key=test-key` — the `/api` base-path
prefix is dropped by `new URL(path, base)` for an absolute path, so the URL
does not contain `/api/sms/quick` (the spec and the repo's own test require
it); the API key does appear as the `key` query parameter. -/
theorem buildUrl_base_path_prefix_dropped :
    apiPrefixClient.buildUrl "/sms/quick" none =
      some "https://api.mnotify.com/sms/quick?key=test-key" ∧
    ¬ ("/api/sms/quick".data <:+:
        "https://api.mnotify.com/sms/quick?key=test-key".data) ∧
    ("key=test-key".data <:+:
        "https://api.mnotify.com/sms/quick?key=test-key".data) :=
  ⟨rfl, by decide, by decide⟩

/-- C2 (code bug): a successful transport response missing the required
`summary` field makes `sendQuickBulkSMSSafe` throw
`ValidationError('Missing required field: summary')` (a rejected promise)
instead of returning the `Err` "Invalid SMS response format" that the spec
and the repo's test expect, because `validateRequired` throws and the Safe
path has no try/catch. -/
theorem sendQuickBulkSMSSafe_throws_on_missing_summary :
    SMSService.sendQuickBulkSMSSafe missingSummaryTransport smsOptions0 =
      .error { message := "Missing required field: summary", field := some "summary" } ∧
    validateRequired missingSummaryResp ["status", "code", "message", "summary"] =
      .error { message := "Missing required field: summary", field := some "summary" } :=
  ⟨rfl, rfl⟩

/-- C7 counterexample: a descriptor query parameter named `key` is written
after the API key and overrides it — the built URL carries the descriptor's
value, not the configured API key. -/
theorem buildUrl_descriptor_key_overrides_cex :
    HttpClient.buildUrl { apiKey := "real-key" } "/x" (some [("key", "attacker")]) =
      some "https://api.mnotify.com/x?key=attacker" ∧
    (HttpClient.buildUrlRec { apiKey := "real-key" } "/x"
        (some [("key", "attacker")])).map (fun u => getParam u.query "key") =
      some (some "attacker") ∧
    "attacker" ≠ "real-key" :=
  ⟨rfl, rfl, by decide⟩

/-- C7 amended: descriptor params are set after the `key` parameter and do
override it on collision; whenever the descriptor's params contain no entry
named `key`, the built URL's `key` query parameter is the configured API
key. -/
theorem buildUrl_key_param_without_descriptor_key (c : HttpClient)
    (path : String) (params : List (String × String)) (u : URLRec)
    (hnokey : ∀ kv ∈ params, kv.1 ≠ "key")
    (hres : c.buildUrlRec path (some params) = some u) :
    getParam u.query "key" = some c.apiKey := by
  unfold HttpClient.buildUrlRec at hres
  cases hu : urlResolve path c.baseUrl with
  | none => rw [hu] at hres; cases hres
  | some u0 =>
    rw [hu] at hres
    simp only [Option.map_some'] at hres
    cases hres
    simp only []
    rw [getParam_foldl_setParam params _ hnokey, getParam_setParam_self]

/-- Witness for C7's amended theorem at a concrete client and descriptor. -/
theorem buildUrl_key_param_without_descriptor_key_witness :
    getParam (URLRec.mk "https" "api.mnotify.com" "/x"
      [("key", "k"), ("a", "b")]).query "key" = some "k" :=
  buildUrl_key_param_without_descriptor_key clientK "/x" [("a", "b")] _
    (by decide) rfl

/-- C8 counterexample: an unparseable `retry-after: abc` header does not
produce the claimed 1-second sleep — `parseInt('abc') * 1000` is NaN
(`retryDelayMs` = `none`), which `setTimeout` clamps to 0 ms, and that NaN
delay is exactly what the retry records before re-attempting. -/
theorem retry_after_unparseable_cex :
    retryDelayMs (some "abc") = none ∧
    jsSetTimeoutDelay (retryDelayMs (some "abc")) = 0 ∧
    retryDelayMs (some "abc") ≠ some 1000 ∧
    (clientK.requestSafe abc429Oracle 0).2.2 = [retryDelayMs (some "abc")] :=
  ⟨rfl, rfl, by decide, rfl⟩

/-- C8 amended: the sleep before a 429 retry is `retryDelayMs` of the
`retry-after` header: 1000 ms when the header is absent or empty (both are
falsy, substituting `'1'`); `parseInt(header) * 1000` ms when the header has
a parseable leading integer; and NaN (which `setTimeout` treats as 0 —
immediate retry, not 1 second) when it is unparseable. -/
theorem retry_delay_amended :
    retryDelayMs none = some 1000 ∧
    retryDelayMs (some "") = some 1000 ∧
    (∀ s k, s ≠ "" → jsParseInt s = some k →
      retryDelayMs (some s) = some (k * 1000)) ∧
    (∀ s, s ≠ "" → jsParseInt s = none →
      retryDelayMs (some s) = none ∧
      jsSetTimeoutDelay (retryDelayMs (some s)) = 0) ∧
    (∀ (client : HttpClient) (oracle : Nat → FetchOutcome) (r : Nat) stx h jb,
      oracle r = .resp 429 stx h jb → r < client.maxRetries →
      ((client.requestSafe oracle r).2.2).head? = some (retryDelayMs h)) := by
  refine ⟨rfl, rfl, ?_, ?_, ?_⟩
  · intro s k hs hp
    simp [retryDelayMs, hs, hp]
  · intro s hs hp
    simp [retryDelayMs, jsSetTimeoutDelay, hs, hp]
  · intro client oracle r stx h jb ho hlt
    show ((client.requestSafeGo oracle (client.maxRetries + 1) r).2.2).head? = _
    rw [HttpClient.requestSafeGo.eq_1, ho]
    simp only []
    simp [show respOk 429 = false from rfl, hlt]

/-- Witness for C8's amended theorem: `retry-after: 5` sleeps 5000 ms. -/
theorem retry_delay_amended_witness :
    retryDelayMs (some "5") = some 5000 :=
  retry_delay_amended.2.2.1 "5" 5 (by decide) rfl

/-- C9: the two client-side rejections are synthesized without any network
call (the request log is empty): `getSenderIdsSafe` always fails with status
400, stage "validation", suggesting `checkSenderIdStatusSafe`; and
`createContactSafe` without a `groupId` fails with status 400, stage
"validation", and context path `/contact/{group_id}`. -/
theorem unsupported_operations_no_network
    (transport : RequestConfig → Result JsVal MNotifyError) (contact : JsVal) :
    (AccountService.getSenderIdsSafe transport).2 = [] ∧
    (∃ e, (AccountService.getSenderIdsSafe transport).1 = .err e ∧
      e.statusCode = 400 ∧
      ctxLookup e.context "stage" = some (.str "validation") ∧
      ("checkSenderIdStatusSafe".data <:+: e.message.data)) ∧
    (ContactService.createContactSafe transport contact none).2 = [] ∧
    (∃ e, (ContactService.createContactSafe transport contact none).1 = .err e ∧
      e.statusCode = 400 ∧
      ctxLookup e.context "stage" = some (.str "validation") ∧
      ctxLookup e.context "path" = some (.str "/contact/\x7bgroup_id\x7d")) := by
  refine ⟨rfl, ⟨_, rfl, rfl, rfl, by decide⟩, rfl, ⟨_, rfl, rfl, rfl, rfl⟩⟩

end MNotify
